import Mathlib

/-!
Verification of the hijri-datetime repository's core model.

Part 1 embeds the ordinal arithmetic model of `src/HijriDate.py`
(`HijriDate.__init__`, `_to_ordinal`, `_from_ordinal`, `_add_days`,
`__lt__`, and the `idate` factory).  Python integers are embedded as
`Int`; Python `//` and `%` are floor division and floor modulus, so they
are embedded as `Int.fdiv` and `Int.fmod`.  A constructor that can raise
`ValueError` is embedded as a function into `Option`.

Part 2 embeds the range-query engine of `src/unnamed/part_000`
(`HijriDateMapper.get_dtype`, `to_hijri`, `to_greg`,
`get_match_indexes`).  A pandas `DataFrame` with the default
`RangeIndex` is embedded as a `List` of records whose positions are the
`List.enum` indices `0..n-1`; a boolean-mask selection `df[mask]` is a
`filter` over the enumerated rows, which keeps the original index
labels, exactly as pandas does.
-/

namespace HijriSpec

/-- A Hijri date record: the three fields stored by `HijriDate.__init__`
(`self.year`, `self.month`, `self.day`). -/
structure HijriDate where
  year : Int
  month : Int
  day : Int
deriving DecidableEq, Repr

/-- The month/day invariant documented for `HijriDate`:
month in `[1, 12]`, day in `[1, 30]`, no bound on the year. -/
def HijriDate.valid (d : HijriDate) : Prop :=
  1 ≤ d.month ∧ d.month ≤ 12 ∧ 1 ≤ d.day ∧ d.day ≤ 30

instance (d : HijriDate) : Decidable d.valid := by
  unfold HijriDate.valid; infer_instance

/-- Embeds `HijriDate.__init__` (src/HijriDate.py lines 23-42): raises
`ValueError` unless `1 <= month <= 12` and `1 <= day <= 30`; the year is
not checked.  The raising constructor is embedded into `Option`. -/
def mkHijriDate (year month day : Int) : Option HijriDate :=
  if ¬ (1 ≤ month ∧ month ≤ 12) then none
  else if ¬ (1 ≤ day ∧ day ≤ 30) then none
  else some ⟨year, month, day⟩

/-- Embeds `HijriDate._to_ordinal` (lines 100-112):
`(year-1)*354 + (month-1)*30 + (day-1)`. -/
def toOrdinal (d : HijriDate) : Int :=
  (d.year - 1) * 354 + (d.month - 1) * 30 + (d.day - 1)

/-- Embeds `HijriDate._from_ordinal` (lines 114-142).  The sequence of Python
reassignments is flattened into single-assignment form: `year1/month1`
are the values after the `if month > 12` block, and `year2/month2/day2`
are the values after the `if day > 30` block (whose body increments the
month, resets the day, and re-checks month overflow into the year).
The final constructor call `cls(year, month, day)` is the checked
constructor `mkHijriDate`. -/
def fromOrdinal (ordinal : Int) : Option HijriDate :=
  let year0 := ordinal.fdiv 354 + 1
  let remaining := ordinal.fmod 354
  let month0 := remaining.fdiv 30 + 1
  let day0 := remaining.fmod 30 + 1
  let year1 := if 12 < month0 then year0 + 1 else year0
  let month1 := if 12 < month0 then 1 else month0
  let year2 := if 30 < day0 then (if 12 < month1 + 1 then year1 + 1 else year1) else year1
  let month2 := if 30 < day0 then (if 12 < month1 + 1 then 1 else month1 + 1) else month1
  let day2 := if 30 < day0 then 1 else day0
  mkHijriDate year2 month2 day2

/-- Embeds `HijriDate._add_days` (lines 144-155):
`from_ordinal(to_ordinal(self) + days)`.  `d + iTimedelta(n)` delegates
here with `n`, and `d - iTimedelta(n)` delegates here with `-n`. -/
def addDays (d : HijriDate) (days : Int) : Option HijriDate :=
  fromOrdinal (toOrdinal d + days)

/-- Embeds `HijriDate.__lt__` (lines 58-62): Python tuple comparison
`(year, month, day) < (year, month, day)`, i.e. lexicographic order. -/
def hlt (a b : HijriDate) : Prop :=
  a.year < b.year ∨
    (a.year = b.year ∧
      (a.month < b.month ∨ (a.month = b.month ∧ a.day < b.day)))

instance (a b : HijriDate) : Decidable (hlt a b) := by
  unfold hlt; infer_instance

/-! ### The idate factory (src/HijriDate.py lines 298-343) -/

/-- Failure modes of `idate`: the explicit
`ValueError("Month must be specified when day is provided")` and a
`ValueError` propagated from the `HijriDate` constructor. -/
inductive IdateError where
  | missingMonth
  | invalidDate
deriving DecidableEq, Repr

/-- Return shape of `idate`: either a single `HijriDate`, or a
`(start_date, duration)` pair whose duration is an `iTimedelta` day
count. -/
inductive IdateResult where
  | single : HijriDate → IdateResult
  | startAndDays : HijriDate → Int → IdateResult
deriving DecidableEq, Repr

/-- Embeds `idate(year, month=None, day=None)`: with a day but no month it
raises; with all three it builds `HijriDate(year, month, day)`; with
year+month it returns `(HijriDate(year, month, 1), iTimedelta(30))`;
with only a year it returns `(HijriDate(year, 1, 1), iTimedelta(354))`.
Constructor errors propagate. -/
def idate (year : Int) (month day : Option Int) : Except IdateError IdateResult :=
  match day with
  | some dv =>
    match month with
    | none => Except.error IdateError.missingMonth
    | some mv =>
      match mkHijriDate year mv dv with
      | none => Except.error IdateError.invalidDate
      | some hd => Except.ok (IdateResult.single hd)
  | none =>
    match month with
    | some mv =>
      match mkHijriDate year mv 1 with
      | none => Except.error IdateError.invalidDate
      | some hd => Except.ok (IdateResult.startAndDays hd 30)
    | none =>
      match mkHijriDate year 1 1 with
      | none => Except.error IdateError.invalidDate
      | some hd => Except.ok (IdateResult.startAndDays hd 354)

/-! ### The range-query engine (src/unnamed/part_000) -/

/-- One row of the correspondence table, with the columns of
`sample_data`: Gregorian fields, Hijri fields and the calculation
method. -/
structure Rec where
  g_year : Int
  g_month : Int
  g_day : Int
  h_year : Int
  h_month : Int
  h_day : Int
  hijri_method : String
deriving DecidableEq, Repr

/-- Embeds `HijriDateMapper.get_dtype` (part_000 lines 35-44): classification
of the query precision by which of year, month, day `is not None`. -/
def get_dtype (year month day : Option Int) : String :=
  if year.isSome && month.isSome && day.isSome then "date"
  else if year.isSome && month.isSome then "month_range"
  else if year.isSome then "year_range"
  else "invalid"

/-- Boolean-mask selection `df[mask]` over a DataFrame with the default
`RangeIndex`: filter the enumerated rows, keeping the original index
labels. -/
def matchRows (mask : Rec → Bool) (df : List Rec) : List (Nat × Rec) :=
  df.enum.filter (fun x => mask x.2)

/-- The common tail of `to_hijri`/`to_greg` (part_000 lines 75-84): on
an empty result report `(result, None, 0)`; otherwise report the first
index label, and the span `result.index[-1] - result.index[0]`. -/
def summarize (rows : List (Nat × Rec)) : List (Nat × Rec) × Option Nat × Int :=
  match rows with
  | [] => ([], none, 0)
  | r :: rs =>
    (r :: rs, some r.1,
      (((r :: rs).getLast (List.cons_ne_nil r rs)).1 : Int) - (r.1 : Int))

/-- The mask-selection part of `HijriDateMapper.to_hijri` (lines
58-73): branch on the classified dtype and filter on the Gregorian
columns; the `else` branch yields an empty frame. -/
def gregRows (df : List Rec) (year month day : Option Int) : List (Nat × Rec) :=
  let dtype := get_dtype year month day
  if dtype = "date" then
    matchRows (fun r => (some r.g_year == year) && (some r.g_month == month)
      && (some r.g_day == day)) df
  else if dtype = "month_range" then
    matchRows (fun r => (some r.g_year == year) && (some r.g_month == month)) df
  else if dtype = "year_range" then
    matchRows (fun r => (some r.g_year == year)) df
  else []

/-- The mask-selection part of `HijriDateMapper.to_greg` (lines
98-113), filtering on the Hijri columns. -/
def hijriRows (df : List Rec) (year month day : Option Int) : List (Nat × Rec) :=
  let dtype := get_dtype year month day
  if dtype = "date" then
    matchRows (fun r => (some r.h_year == year) && (some r.h_month == month)
      && (some r.h_day == day)) df
  else if dtype = "month_range" then
    matchRows (fun r => (some r.h_year == year) && (some r.h_month == month)) df
  else if dtype = "year_range" then
    matchRows (fun r => (some r.h_year == year)) df
  else []

/-- Embeds `HijriDateMapper.to_hijri` (lines 46-84): returns
`(result, first_index, span)`. -/
def to_hijri (df : List Rec) (year month day : Option Int) :
    List (Nat × Rec) × Option Nat × Int :=
  summarize (gregRows df year month day)

/-- Embeds `HijriDateMapper.to_greg` (lines 86-124): returns
`(result, first_index, span)`. -/
def to_greg (df : List Rec) (year month day : Option Int) :
    List (Nat × Rec) × Option Nat × Int :=
  summarize (hijriRows df year month day)

/-- Embeds `HijriDateMapper.get_match_indexes` (lines 126-152): the
positions-only path.  The column triple is chosen by `date_type`
(`'gregorian'` vs anything else, which selects the Hijri columns), the
same dtype branch computes the mask, the `else` branch returns
`(None, None, 0)` at once, and a non-empty index list reports
`(first, last, count)`. -/
def get_match_indexes (df : List Rec) (year month day : Option Int)
    (date_type : String) : Option Nat × Option Nat × Nat :=
  let dtype := get_dtype year month day
  let py : Rec → Int := if date_type = "gregorian" then (·.g_year) else (·.h_year)
  let pm : Rec → Int := if date_type = "gregorian" then (·.g_month) else (·.h_month)
  let pdy : Rec → Int := if date_type = "gregorian" then (·.g_day) else (·.h_day)
  let masked : Option (List (Nat × Rec)) :=
    if dtype = "date" then
      some (matchRows (fun r => (some (py r) == year) && (some (pm r) == month)
        && (some (pdy r) == day)) df)
    else if dtype = "month_range" then
      some (matchRows (fun r => (some (py r) == year) && (some (pm r) == month)) df)
    else if dtype = "year_range" then
      some (matchRows (fun r => (some (py r) == year)) df)
    else none
  match masked with
  | none => (none, none, 0)
  | some rows =>
    match rows with
    | [] => (none, none, 0)
    | r :: rs =>
      (some r.1, some ((r :: rs).getLast (List.cons_ne_nil r rs)).1, (r :: rs).length)

/-- The `sample_data` table built into part_000 (lines 14-22),
row-major. -/
def sampleData : List Rec :=
  [⟨2024, 1, 15, 1445, 7, 4, "ISNA"⟩,
   ⟨2024, 1, 16, 1445, 7, 5, "ISNA"⟩,
   ⟨2024, 1, 17, 1445, 7, 6, "ISNA"⟩,
   ⟨2024, 2, 10, 1445, 8, 1, "ISNA"⟩,
   ⟨2024, 2, 11, 1445, 8, 2, "ISNA"⟩,
   ⟨2025, 1, 5, 1446, 7, 25, "ISNA"⟩,
   ⟨2025, 1, 6, 1446, 7, 26, "ISNA"⟩,
   ⟨2025, 3, 20, 1446, 9, 10, "ISNA"⟩]

/-! ### Contiguity of range matches over a Gregorian-sorted dataset (C7) -/

/-- Ascending-by-`(g_year, g_month, g_day)` comparison on records: the
sort key of `_load_mapping_data`'s
`df.sort_values(["g_year", "g_month", "g_day"])`. -/
def gle (a b : Rec) : Prop :=
  a.g_year < b.g_year ∨
    (a.g_year = b.g_year ∧
      (a.g_month < b.g_month ∨ (a.g_month = b.g_month ∧ a.g_day ≤ b.g_day)))

instance : DecidableRel gle := fun a b => by unfold gle; infer_instance


/-! ### Helper lemmas about the ordinal conversions -/

theorem mkHijriDate_eq_some {y m d : Int} (h1 : 1 ≤ m) (h2 : m ≤ 12)
    (h3 : 1 ≤ d) (h4 : d ≤ 30) : mkHijriDate y m d = some ⟨y, m, d⟩ := by
  unfold mkHijriDate
  rw [if_neg (by omega), if_neg (by omega)]

/-- In `_from_ordinal` the remainders are already in range
(`0 ≤ n mod 354 ≤ 353` gives month `≤ 12` and day `≤ 30`), so both
overflow branches are dead and the constructor's checks pass: the
function reduces to the plain div/mod decomposition. -/
theorem fromOrdinal_eq (n : Int) :
    fromOrdinal n =
      some ⟨n.fdiv 354 + 1, (n.fmod 354).fdiv 30 + 1, (n.fmod 354).fmod 30 + 1⟩ := by
  have h354 : (0 : Int) ≤ 354 := by omega
  have h30 : (0 : Int) ≤ 30 := by omega
  have hr : n.fmod 354 = n % 354 := Int.fmod_eq_emod n h354
  have hrange : 0 ≤ n % 354 ∧ n % 354 < 354 :=
    ⟨Int.emod_nonneg n (by omega), Int.emod_lt_of_pos n (by omega)⟩
  have hm : (n.fmod 354).fdiv 30 = (n % 354) / 30 := by
    rw [hr]; exact Int.fdiv_eq_ediv _ h30
  have hd : (n.fmod 354).fmod 30 = (n % 354) % 30 := by
    rw [hr]; exact Int.fmod_eq_emod _ h30
  have hmle : (n.fmod 354).fdiv 30 + 1 ≤ 12 := by rw [hm]; omega
  have hmge : 1 ≤ (n.fmod 354).fdiv 30 + 1 := by rw [hm]; omega
  have hdle : (n.fmod 354).fmod 30 + 1 ≤ 30 := by rw [hd]; omega
  have hdge : 1 ≤ (n.fmod 354).fmod 30 + 1 := by rw [hd]; omega
  have c1 : ¬ (12 < (n.fmod 354).fdiv 30 + 1) := by omega
  have c2 : ¬ (30 < (n.fmod 354).fmod 30 + 1) := by omega
  simp only [fromOrdinal, if_neg c1, if_neg c2]
  exact mkHijriDate_eq_some hmge hmle hdge hdle

/-- Shared lemma behind C10: `to_ordinal` applied to the components that
`_from_ordinal` builds gives the ordinal back, for every integer. -/
theorem toOrdinal_fromOrdinal_aux (n : Int) :
    toOrdinal ⟨n.fdiv 354 + 1, (n.fmod 354).fdiv 30 + 1, (n.fmod 354).fmod 30 + 1⟩ = n := by
  have h354 : (0 : Int) ≤ 354 := by omega
  have h30 : (0 : Int) ≤ 30 := by omega
  have h1 : n.fdiv 354 = n / 354 := Int.fdiv_eq_ediv n h354
  have h2 : n.fmod 354 = n % 354 := Int.fmod_eq_emod n h354
  have h3 : (n.fmod 354).fdiv 30 = (n % 354) / 30 := by
    rw [h2]; exact Int.fdiv_eq_ediv _ h30
  have h4 : (n.fmod 354).fmod 30 = (n % 354) % 30 := by
    rw [h2]; exact Int.fmod_eq_emod _ h30
  unfold toOrdinal
  simp only [h1, h3, h4]
  omega

/-- Round trip on the ordinal side of a date whose in-year offset is at
most 353 (month `< 12`, or month `= 12` and day `≤ 24`): the div/mod
decomposition recovers the original components. -/
theorem fromOrdinal_toOrdinal (d : HijriDate) (hv : d.valid)
    (hoff : (d.month - 1) * 30 + (d.day - 1) ≤ 353) :
    fromOrdinal (toOrdinal d) = some d := by
  obtain ⟨Y, M, D⟩ := d
  obtain ⟨h1, h2, h3, h4⟩ := hv
  simp only at h1 h2 h3 h4 hoff
  have hto : toOrdinal ⟨Y, M, D⟩ = (Y - 1) * 354 + (M - 1) * 30 + (D - 1) := by
    simp [toOrdinal]
  rw [fromOrdinal_eq, hto]
  have e1 : ((Y - 1) * 354 + (M - 1) * 30 + (D - 1)).fdiv 354
      = ((Y - 1) * 354 + (M - 1) * 30 + (D - 1)) / 354 :=
    Int.fdiv_eq_ediv _ (by omega)
  have e2 : ((Y - 1) * 354 + (M - 1) * 30 + (D - 1)).fmod 354
      = ((Y - 1) * 354 + (M - 1) * 30 + (D - 1)) % 354 :=
    Int.fmod_eq_emod _ (by omega)
  rw [e1, e2]
  have e3 : (((Y - 1) * 354 + (M - 1) * 30 + (D - 1)) % 354).fdiv 30
      = (((Y - 1) * 354 + (M - 1) * 30 + (D - 1)) % 354) / 30 :=
    Int.fdiv_eq_ediv _ (by omega)
  have e4 : (((Y - 1) * 354 + (M - 1) * 30 + (D - 1)) % 354).fmod 30
      = (((Y - 1) * 354 + (M - 1) * 30 + (D - 1)) % 354) % 30 :=
    Int.fmod_eq_emod _ (by omega)
  rw [e3, e4]
  have hmod : ((Y - 1) * 354 + (M - 1) * 30 + (D - 1)) % 354 = (M - 1) * 30 + (D - 1) := by
    omega
  rw [hmod]
  simp only [Option.some.injEq, HijriDate.mk.injEq]
  refine ⟨?_, ?_, ?_⟩ <;> omega

/-- Every date produced by `_from_ordinal` satisfies the month/day
invariant: the remainders land inside the checked bounds. -/
theorem fromOrdinal_valid (n : Int) (e : HijriDate) (he : fromOrdinal n = some e) :
    e.valid := by
  rw [fromOrdinal_eq] at he
  injection he with he
  subst he
  have hr : n.fmod 354 = n % 354 := Int.fmod_eq_emod n (by omega)
  have hm : (n.fmod 354).fdiv 30 = (n % 354) / 30 := by
    rw [hr]; exact Int.fdiv_eq_ediv _ (by omega)
  have hd : (n.fmod 354).fmod 30 = (n % 354) % 30 := by
    rw [hr]; exact Int.fmod_eq_emod _ (by omega)
  unfold HijriDate.valid
  refine ⟨?_, ?_, ?_, ?_⟩ <;> simp only [hm, hd] <;> omega

/-! ### Claims about the arithmetic model -/

/-- C1 (counterexample): the round trip fails on the valid date
1447-12-25, whose ordinal collides with 1448-01-01; hence
`d + Duration(0) == d` also fails there. -/
theorem c1_roundtrip_counterexample :
    HijriDate.valid ⟨1447, 12, 25⟩ ∧
    fromOrdinal (toOrdinal ⟨1447, 12, 25⟩) = some ⟨1448, 1, 1⟩ ∧
    fromOrdinal (toOrdinal ⟨1447, 12, 25⟩) ≠ some ⟨1447, 12, 25⟩ ∧
    addDays ⟨1447, 12, 25⟩ 0 ≠ some ⟨1447, 12, 25⟩ := by
  refine ⟨by decide, by decide, by decide, by decide⟩

/-- C1 (amended): for every valid CalendarDate whose in-year offset
`(month-1)*30 + (day-1)` is at most 353 — equivalently month < 12, or
month = 12 and day ≤ 24 — `from_ordinal(to_ordinal(d)) = d`,
`d + Duration(0) = d`, and `(d + Duration(n)) - Duration(n) = d` for
every integer n.  Dates with month = 12 and day ≥ 25 violate all
three. -/
theorem c1_roundtrip_amended (d : HijriDate) (hv : d.valid)
    (hoff : (d.month - 1) * 30 + (d.day - 1) ≤ 353) :
    fromOrdinal (toOrdinal d) = some d ∧
    addDays d 0 = some d ∧
    ∀ n : Int, (addDays d n).bind (fun e => addDays e (-n)) = some d := by
  have hrt := fromOrdinal_toOrdinal d hv hoff
  refine ⟨hrt, ?_, ?_⟩
  · unfold addDays
    rw [Int.add_zero]
    exact hrt
  · intro n
    unfold addDays
    rw [fromOrdinal_eq (toOrdinal d + n)]
    simp only [Option.some_bind]
    rw [toOrdinal_fromOrdinal_aux (toOrdinal d + n)]
    rw [show toOrdinal d + n + -n = toOrdinal d by ring]
    exact hrt

theorem c1_roundtrip_amended_witness :
    fromOrdinal (toOrdinal ⟨1447, 6, 15⟩) = some ⟨1447, 6, 15⟩ ∧
    addDays ⟨1447, 6, 15⟩ 0 = some ⟨1447, 6, 15⟩ ∧
    (addDays ⟨1447, 6, 15⟩ 100).bind (fun e => addDays e (-100)) = some ⟨1447, 6, 15⟩ := by
  have h := c1_roundtrip_amended ⟨1447, 6, 15⟩ (by decide) (by decide)
  exact ⟨h.1, h.2.1, h.2.2 100⟩

/-- C2: the month rollover holds for months 1..11, but the year
rollover fails: `CalendarDate(1447, 12, 30) + Duration(1)` evaluates to
`CalendarDate(1448, 1, 7)`, not `CalendarDate(1448, 1, 1)` asserted by
the claim and by the repository's own test
`TestEdgeCases.test_month_year_overflow`. -/
theorem c2_rollover_code_bug :
    (∀ (Y M : Int), 1 ≤ M → M ≤ 11 → addDays ⟨Y, M, 30⟩ 1 = some ⟨Y, M + 1, 1⟩) ∧
    addDays ⟨1447, 12, 30⟩ 1 = some ⟨1448, 1, 7⟩ ∧
    addDays ⟨1447, 12, 30⟩ 1 ≠ some ⟨1448, 1, 1⟩ := by
  refine ⟨?_, by decide, by decide⟩
  intro Y M h1 h2
  unfold addDays
  rw [show toOrdinal ⟨Y, M, 30⟩ + 1 = toOrdinal ⟨Y, M + 1, 1⟩ by simp [toOrdinal]; ring]
  exact fromOrdinal_toOrdinal ⟨Y, M + 1, 1⟩
    (by unfold HijriDate.valid; simp only; omega) (by simp only; omega)

theorem c2_rollover_witness : addDays ⟨1447, 6, 30⟩ 1 = some ⟨1447, 7, 1⟩ := by
  have h := c2_rollover_code_bug.1 1447 6 (by norm_num) (by norm_num)
  simpa using h

/-- C3 (counterexample): 0001-12-25 is lexicographically below
0002-01-01 but both have ordinal 354, so strict lexicographic order and
strict ordinal order disagree. -/
theorem c3_order_counterexample :
    HijriDate.valid ⟨1, 12, 25⟩ ∧ HijriDate.valid ⟨2, 1, 1⟩ ∧
    hlt ⟨1, 12, 25⟩ ⟨2, 1, 1⟩ ∧
    ¬ toOrdinal ⟨1, 12, 25⟩ < toOrdinal ⟨2, 1, 1⟩ := by
  refine ⟨by decide, by decide, by decide, by decide⟩

/-- C3 (amended): for valid dates whose in-year offsets are at most 353
(month < 12, or month = 12 and day ≤ 24), the lexicographic order of
`__lt__` coincides with strict order of `_to_ordinal` values. -/
theorem c3_order_amended (d1 d2 : HijriDate) (hv1 : d1.valid) (hv2 : d2.valid)
    (h1 : (d1.month - 1) * 30 + (d1.day - 1) ≤ 353)
    (h2 : (d2.month - 1) * 30 + (d2.day - 1) ≤ 353) :
    hlt d1 d2 ↔ toOrdinal d1 < toOrdinal d2 := by
  obtain ⟨Y1, M1, D1⟩ := d1
  obtain ⟨Y2, M2, D2⟩ := d2
  obtain ⟨a1, a2, a3, a4⟩ := hv1
  obtain ⟨b1, b2, b3, b4⟩ := hv2
  simp only [hlt, toOrdinal] at *
  constructor <;> intro h <;> omega

theorem c3_order_amended_witness :
    hlt ⟨1447, 6, 15⟩ ⟨1447, 6, 20⟩ ↔
      toOrdinal ⟨1447, 6, 15⟩ < toOrdinal ⟨1447, 6, 20⟩ :=
  c3_order_amended ⟨1447, 6, 15⟩ ⟨1447, 6, 20⟩ (by decide) (by decide)
    (by decide) (by decide)

/-- C5: construction succeeds exactly when month is in `[1, 12]` and
day is in `[1, 30]` (no bound on the year), and `_from_ordinal` — hence
`_add_days`, addition and subtraction — always yields a date satisfying
the invariant, for every integer ordinal including negative ones. -/
theorem c5_invariant :
    (∀ y m d : Int,
      (mkHijriDate y m d).isSome = true ↔ (1 ≤ m ∧ m ≤ 12 ∧ 1 ≤ d ∧ d ≤ 30)) ∧
    (∀ n : Int, ∃ e : HijriDate, fromOrdinal n = some e ∧ e.valid) ∧
    (∀ (d : HijriDate) (n : Int) (e : HijriDate), addDays d n = some e → e.valid) := by
  refine ⟨?_, ?_, ?_⟩
  · intro y m d
    unfold mkHijriDate
    split
    next h => simp only [Option.isSome_none, Bool.false_eq_true, false_iff]; omega
    next h =>
      split
      next h2 => simp only [Option.isSome_none, Bool.false_eq_true, false_iff]; omega
      next h2 => simp only [Option.isSome_some, true_iff]; omega
  · intro n
    exact ⟨_, fromOrdinal_eq n, fromOrdinal_valid n _ (fromOrdinal_eq n)⟩
  · intro d n e he
    exact fromOrdinal_valid (toOrdinal d + n) e he

theorem c5_invariant_witness :
    (mkHijriDate 1447 6 15).isSome = true ∧
    HijriDate.valid ⟨1448, 1, 7⟩ := by
  refine ⟨(c5_invariant.1 1447 6 15).mpr (by decide), ?_⟩
  exact c5_invariant.2.2 ⟨1447, 12, 30⟩ 1 ⟨1448, 1, 7⟩ (by decide)

/-- C9: `idate` dispatches on which arguments are present exactly as
the claim states: day without month fails with the missing-month error
(for any day value); year+month give `(HijriDate(year, month, 1),
iTimedelta(30))`; year alone gives `(HijriDate(year, 1, 1),
iTimedelta(354))`; all three build the single date, propagating the
constructor's validation error. -/
theorem c9_idate_factory :
    ∀ y : Int,
    (∀ d : Int, idate y none (some d) = Except.error IdateError.missingMonth) ∧
    (∀ m : Int, 1 ≤ m → m ≤ 12 →
      idate y (some m) none = Except.ok (IdateResult.startAndDays ⟨y, m, 1⟩ 30)) ∧
    (∀ m : Int, ¬ (1 ≤ m ∧ m ≤ 12) →
      idate y (some m) none = Except.error IdateError.invalidDate) ∧
    idate y none none = Except.ok (IdateResult.startAndDays ⟨y, 1, 1⟩ 354) ∧
    (∀ m d : Int, 1 ≤ m → m ≤ 12 → 1 ≤ d → d ≤ 30 →
      idate y (some m) (some d) = Except.ok (IdateResult.single ⟨y, m, d⟩)) ∧
    (∀ m d : Int, ¬ (1 ≤ m ∧ m ≤ 12 ∧ 1 ≤ d ∧ d ≤ 30) →
      idate y (some m) (some d) = Except.error IdateError.invalidDate) := by
  intro y
  have hmknone : ∀ m d : Int, ¬ (1 ≤ m ∧ m ≤ 12 ∧ 1 ≤ d ∧ d ≤ 30) →
      mkHijriDate y m d = none := by
    intro m d h
    unfold mkHijriDate
    split
    next => rfl
    next hc =>
      split
      next => rfl
      next hc2 => exact absurd (by omega : 1 ≤ m ∧ m ≤ 12 ∧ 1 ≤ d ∧ d ≤ 30) h
  refine ⟨fun d => rfl, ?_, ?_, ?_, ?_, ?_⟩
  · intro m hm1 hm2
    dsimp only [idate]
    rw [mkHijriDate_eq_some hm1 hm2 (by omega) (by omega)]
  · intro m hm
    dsimp only [idate]
    rw [hmknone m 1 (by omega)]
  · dsimp only [idate]
    rw [mkHijriDate_eq_some (by omega) (by omega) (by omega) (by omega)]
  · intro m d hm1 hm2 hd1 hd2
    dsimp only [idate]
    rw [mkHijriDate_eq_some hm1 hm2 hd1 hd2]
  · intro m d h
    dsimp only [idate]
    rw [hmknone m d h]

theorem c9_idate_factory_witness :
    idate 1447 none (some 15) = Except.error IdateError.missingMonth ∧
    idate 1447 (some 6) none = Except.ok (IdateResult.startAndDays ⟨1447, 6, 1⟩ 30) ∧
    idate 1447 (some 13) none = Except.error IdateError.invalidDate ∧
    idate 1447 none none = Except.ok (IdateResult.startAndDays ⟨1447, 1, 1⟩ 354) ∧
    idate 1447 (some 6) (some 15) = Except.ok (IdateResult.single ⟨1447, 6, 15⟩) ∧
    idate 1447 (some 6) (some 31) = Except.error IdateError.invalidDate := by
  obtain ⟨w1, w2, w3, w4, w5, w6⟩ := c9_idate_factory 1447
  exact ⟨w1 15, w2 6 (by decide) (by decide), w3 13 (by decide), w4,
    w5 6 15 (by decide) (by decide) (by decide) (by decide), w6 6 31 (by decide)⟩

/-- C10: `to_ordinal` is a left inverse of `from_ordinal` on every
integer ordinal, including negative ones: the floor div/mod
decomposition of `_from_ordinal` recombines to the input, even where
the date-to-ordinal round trip is not the identity. -/
theorem c10_ordinal_left_inverse : ∀ n : Int, (fromOrdinal n).map toOrdinal = some n := by
  intro n
  rw [fromOrdinal_eq]
  simp only [Option.map_some']
  exact congrArg some (toOrdinal_fromOrdinal_aux n)

/-! ### Claims about the query engine -/

/-- C4 (counterexample): a day given without a month is classified
`"year_range"` by `get_dtype`, not `"invalid"` — the `elif year is not
None` branch catches it before the `else`. -/
theorem c4_classification_counterexample :
    get_dtype (some 1447) none (some 15) = "year_range" ∧
    get_dtype (some 1447) none (some 15) ≠ "invalid" := by
  exact ⟨by decide, by decide⟩

/-- C4 (amended): `get_dtype` classifies by presence as: `"date"` iff
all three are present; `"month_range"` iff year and month are present
and day is absent; `"year_range"` iff year is present and month is
absent, whether or not a day is given; `"invalid"` iff the year is
absent. -/
theorem c4_classification_amended :
    ∀ year month day : Option Int,
    (get_dtype year month day = "date" ↔
      year.isSome = true ∧ month.isSome = true ∧ day.isSome = true) ∧
    (get_dtype year month day = "month_range" ↔
      year.isSome = true ∧ month.isSome = true ∧ day = none) ∧
    (get_dtype year month day = "year_range" ↔
      year.isSome = true ∧ month = none) ∧
    (get_dtype year month day = "invalid" ↔ year = none) := by
  intro year month day
  cases year <;> cases month <;> cases day <;>
    simp [get_dtype]

/-- C6: whenever the boolean mask matches no row — in either direction,
at any precision including invalid — the result is the normal value
`(empty, None, 0)`; no exception path exists. -/
theorem c6_no_match_normal :
    ∀ (df : List Rec) (year month day : Option Int),
    (gregRows df year month day = [] →
      to_hijri df year month day = ([], none, 0)) ∧
    (hijriRows df year month day = [] →
      to_greg df year month day = ([], none, 0)) := by
  intro df year month day
  constructor
  · intro h
    unfold to_hijri
    rw [h]
    rfl
  · intro h
    unfold to_greg
    rw [h]
    rfl

theorem c6_no_match_normal_witness :
    to_hijri sampleData (some 2030) (some 12) (some 25) = ([], none, 0) ∧
    to_greg sampleData (some 1450) (some 1) (some 1) = ([], none, 0) :=
  ⟨(c6_no_match_normal sampleData (some 2030) (some 12) (some 25)).1 (by decide),
   (c6_no_match_normal sampleData (some 1450) (some 1) (some 1)).2 (by decide)⟩

theorem dtype_cases (year month day : Option Int) :
    get_dtype year month day = "date" ∨ get_dtype year month day = "month_range" ∨
    get_dtype year month day = "year_range" ∨ get_dtype year month day = "invalid" := by
  unfold get_dtype
  split
  · exact Or.inl rfl
  · split
    · exact Or.inr (Or.inl rfl)
    · split
      · exact Or.inr (Or.inr (Or.inl rfl))
      · exact Or.inr (Or.inr (Or.inr rfl))

theorem summarize_fst (rows : List (Nat × Rec)) : (summarize rows).1 = rows := by
  cases rows <;> rfl

/-- Lemma: `get_match_indexes` with the Gregorian columns is the
first/last/count summary of the same filtered rows that `to_hijri`
selects. -/
theorem gmi_greg_rows (df : List Rec) (year month day : Option Int) :
    get_match_indexes df year month day "gregorian" =
      match gregRows df year month day with
      | [] => (none, none, 0)
      | r :: rs =>
        (some r.1, some ((r :: rs).getLast (List.cons_ne_nil r rs)).1, (r :: rs).length) := by
  rcases dtype_cases year month day with h | h | h | h <;>
    simp [get_match_indexes, gregRows, h]

/-- Lemma: `get_match_indexes` with any other `date_type` tag — the source's
`else` means anything but `'gregorian'`, here `'hijri'` — summarizes the
rows that `to_greg` selects. -/
theorem gmi_hijri_rows (df : List Rec) (year month day : Option Int) :
    get_match_indexes df year month day "hijri" =
      match hijriRows df year month day with
      | [] => (none, none, 0)
      | r :: rs =>
        (some r.1, some ((r :: rs).getLast (List.cons_ne_nil r rs)).1, (r :: rs).length) := by
  rcases dtype_cases year month day with h | h | h | h <;>
    simp [get_match_indexes, hijriRows, h]

theorem match_summary_eq (rows : List (Nat × Rec)) :
    (match rows with
     | [] => ((none : Option Nat), (none : Option Nat), (0 : Nat))
     | r :: rs =>
       (some r.1, some ((r :: rs).getLast (List.cons_ne_nil r rs)).1, (r :: rs).length))
    = ((summarize rows).2.1, (rows.getLast?).map Prod.fst, rows.length) := by
  cases rows with
  | nil => rfl
  | cons r rs =>
    simp only [summarize]
    rw [List.getLast?_eq_getLast (r :: rs) (List.cons_ne_nil r rs)]
    simp

/-- C8: `get_match_indexes` agrees with the full query path in both
directions and at every precision: it reports exactly the query's first
matched position, its last matched position, and the match count; both
paths share the classification and the masks, and both report
`(None, None, 0)` on no match or on an invalid query. -/
theorem c8_positions_only_equiv :
    ∀ (df : List Rec) (year month day : Option Int),
    get_match_indexes df year month day "gregorian" =
      ((to_hijri df year month day).2.1,
       ((to_hijri df year month day).1.getLast?).map Prod.fst,
       (to_hijri df year month day).1.length) ∧
    get_match_indexes df year month day "hijri" =
      ((to_greg df year month day).2.1,
       ((to_greg df year month day).1.getLast?).map Prod.fst,
       (to_greg df year month day).1.length) := by
  intro df year month day
  constructor
  · rw [gmi_greg_rows df year month day, match_summary_eq (gregRows df year month day)]
    unfold to_hijri
    rw [summarize_fst]
  · rw [gmi_hijri_rows df year month day, match_summary_eq (hijriRows df year month day)]
    unfold to_greg
    rw [summarize_fst]

/-- A convex mask on a sorted list is anchored by a matching pivot
below the list: the matching rows then form a strict head run, so the
kept indices of `enumFrom k` are an initial segment `range' k count`. -/
theorem filter_enumFrom_anchored (p : Rec → Bool)
    (hconv : ∀ a b c : Rec, gle a b → gle b c → p a = true → p c = true → p b = true)
    (l : List Rec) :
    ∀ pivot : Rec, p pivot = true → ∀ k : Nat,
      l.Pairwise gle → (∀ x ∈ l, gle pivot x) →
      ((l.enumFrom k).filter (fun x => p x.2)).map Prod.fst
        = List.range' k (((l.enumFrom k).filter (fun x => p x.2)).length) := by
  induction l with
  | nil => intro pivot hpiv k hp hall; simp
  | cons b t ih =>
    intro pivot hpiv k hp hall
    rw [List.enumFrom_cons, List.filter_cons]
    by_cases hb : p b = true
    · have hcond : (fun x : Nat × Rec => p x.2) (k, b) = true := hb
      simp only [hcond, if_pos]
      have hrest := ih b hb (k + 1) (List.pairwise_cons.mp hp).2
        (fun x hx => (List.pairwise_cons.mp hp).1 x hx)
      rw [List.map_cons, hrest, List.length_cons, List.range'_succ]
    · have hcond : (fun x : Nat × Rec => p x.2) (k, b) = false := by
        simpa using hb
      simp only [hcond, Bool.false_eq_true, if_neg, not_false_iff]
      have hnone : (t.enumFrom (k + 1)).filter (fun x => p x.2) = [] := by
        rw [List.filter_eq_nil_iff]
        intro x hx hpx
        have hx2 : x.2 ∈ t := by
          have := List.mem_map_of_mem Prod.snd hx
          rwa [List.enumFrom_map_snd] at this
        exact hb (hconv pivot b x.2 (hall b (List.mem_cons_self b t))
          ((List.pairwise_cons.mp hp).1 x.2 hx2) hpiv hpx)
      rw [hnone]
      simp

/-- Over a sorted list, the positions kept by a convex mask are
contiguous: the kept indices of `enumFrom k` form some `range'`. -/
theorem filter_enumFrom_range (p : Rec → Bool)
    (hconv : ∀ a b c : Rec, gle a b → gle b c → p a = true → p c = true → p b = true)
    (l : List Rec) :
    ∀ k : Nat, l.Pairwise gle →
      ∃ s : Nat, ((l.enumFrom k).filter (fun x => p x.2)).map Prod.fst
        = List.range' s (((l.enumFrom k).filter (fun x => p x.2)).length) := by
  induction l with
  | nil => intro k hp; exact ⟨k, by simp⟩
  | cons b t ih =>
    intro k hp
    rw [List.enumFrom_cons, List.filter_cons]
    by_cases hb : p b = true
    · refine ⟨k, ?_⟩
      have hcond : (fun x : Nat × Rec => p x.2) (k, b) = true := hb
      simp only [hcond, if_pos]
      have hrest := filter_enumFrom_anchored p hconv t b hb (k + 1)
        (List.pairwise_cons.mp hp).2
        (fun x hx => (List.pairwise_cons.mp hp).1 x hx)
      rw [List.map_cons, hrest, List.length_cons, List.range'_succ]
    · have hcond : (fun x : Nat × Rec => p x.2) (k, b) = false := by
        simpa using hb
      simp only [hcond, Bool.false_eq_true, if_neg, not_false_iff]
      exact ih (k + 1) (List.pairwise_cons.mp hp).2

/-- When the matched positions form `range' s count` and the match list
is non-empty, `summarize` reports first position `s` and span
`count - 1`. -/
theorem summarize_of_range (rows : List (Nat × Rec)) (s : Nat)
    (hr : rows.map Prod.fst = List.range' s rows.length) (hne : rows ≠ []) :
    (summarize rows).2.1 = some s ∧ (summarize rows).2.2 = (rows.length : Int) - 1 := by
  match rows with
  | [] => exact absurd rfl hne
  | r :: rs =>
    have hlen : (r :: rs).map Prod.fst = List.range' s (rs.length + 1) := by
      simpa using hr
    have hhead : r.1 = s := by
      rw [List.range'_succ] at hlen
      simpa using congrArg List.head? hlen
    have hlast : ((r :: rs).getLast (List.cons_ne_nil r rs)).1 = s + rs.length := by
      have h1 : ((r :: rs).map Prod.fst).getLast? = some (s + rs.length) := by
        rw [hlen, List.range'_1_concat, List.getLast?_concat]
      rw [List.getLast?_map] at h1
      rw [List.getLast?_eq_getLast (r :: rs) (List.cons_ne_nil r rs)] at h1
      simpa using h1
    constructor
    · simp only [summarize, hhead]
    · simp only [summarize, hlast, hhead, List.length_cons]
      push_cast
      ring

/-- Convexity of the month-range mask in the `gle` order: rows matching
a fixed `(g_year, g_month)` sit between no non-matching row. -/
theorem month_mask_convex (Y M : Int) :
    ∀ a b c : Rec, gle a b → gle b c →
      ((some a.g_year == some Y) && (some a.g_month == some M)) = true →
      ((some c.g_year == some Y) && (some c.g_month == some M)) = true →
      ((some b.g_year == some Y) && (some b.g_month == some M)) = true := by
  intro a b c hab hbc ha hc
  simp only [Bool.and_eq_true, beq_iff_eq, Option.some.injEq] at ha hc ⊢
  unfold gle at hab hbc
  omega

/-- Convexity of the year-range mask in the `gle` order. -/
theorem year_mask_convex (Y : Int) :
    ∀ a b c : Rec, gle a b → gle b c →
      (some a.g_year == some Y) = true →
      (some c.g_year == some Y) = true →
      (some b.g_year == some Y) = true := by
  intro a b c hab hbc ha hc
  simp only [beq_iff_eq, Option.some.injEq] at ha hc ⊢
  unfold gle at hab hbc
  omega

/-- C7: against a dataset sorted ascending by `(g_year, g_month,
g_day)` with positions `0..n-1`, every Gregorian-direction month-range
or year-range query with at least one match returns its matches at
ascending, contiguous positions (`range' f count`), so the reported
span is `count - 1`; in particular a month holding exactly 3 records
reports span 2. -/
theorem c7_range_contiguous :
    ∀ df : List Rec, df.Pairwise gle → ∀ Y M : Int,
    ((to_hijri df (some Y) (some M) none).1 ≠ [] →
      (∃ f : Nat, (to_hijri df (some Y) (some M) none).2.1 = some f ∧
        (to_hijri df (some Y) (some M) none).1.map Prod.fst
          = List.range' f (to_hijri df (some Y) (some M) none).1.length) ∧
      (to_hijri df (some Y) (some M) none).2.2
        = ((to_hijri df (some Y) (some M) none).1.length : Int) - 1 ∧
      ((to_hijri df (some Y) (some M) none).1.length = 3 →
        (to_hijri df (some Y) (some M) none).2.2 = 2)) ∧
    ((to_hijri df (some Y) none none).1 ≠ [] →
      (∃ f : Nat, (to_hijri df (some Y) none none).2.1 = some f ∧
        (to_hijri df (some Y) none none).1.map Prod.fst
          = List.range' f (to_hijri df (some Y) none none).1.length) ∧
      (to_hijri df (some Y) none none).2.2
        = ((to_hijri df (some Y) none none).1.length : Int) - 1) := by
  intro df hsort Y M
  constructor
  · intro hne
    have hdt : gregRows df (some Y) (some M) none
        = matchRows (fun r => (some r.g_year == some Y) && (some r.g_month == some M)) df := by
      simp [gregRows, get_dtype]
    obtain ⟨s, hs⟩ := filter_enumFrom_range
      (fun r => (some r.g_year == some Y) && (some r.g_month == some M))
      (month_mask_convex Y M) df 0 hsort
    have hs' : (gregRows df (some Y) (some M) none).map Prod.fst
        = List.range' s (gregRows df (some Y) (some M) none).length := by
      rw [hdt]; unfold matchRows; rw [List.enum_eq_enumFrom]; exact hs
    have hne' : gregRows df (some Y) (some M) none ≠ [] := by
      intro h0
      exact hne (by unfold to_hijri; rw [summarize_fst, h0])
    obtain ⟨hfirst, hspan⟩ :=
      summarize_of_range (gregRows df (some Y) (some M) none) s hs' hne'
    refine ⟨⟨s, ?_, ?_⟩, ?_, ?_⟩
    · unfold to_hijri; exact hfirst
    · unfold to_hijri; rw [summarize_fst]; exact hs'
    · unfold to_hijri; rw [summarize_fst]; exact hspan
    · intro h3
      unfold to_hijri at h3 ⊢
      rw [summarize_fst] at h3
      rw [hspan, h3]
      norm_num
  · intro hne
    have hdt : gregRows df (some Y) none none
        = matchRows (fun r => (some r.g_year == some Y)) df := by
      simp [gregRows, get_dtype]
    obtain ⟨s, hs⟩ := filter_enumFrom_range
      (fun r => (some r.g_year == some Y)) (year_mask_convex Y) df 0 hsort
    have hs' : (gregRows df (some Y) none none).map Prod.fst
        = List.range' s (gregRows df (some Y) none none).length := by
      rw [hdt]; unfold matchRows; rw [List.enum_eq_enumFrom]; exact hs
    have hne' : gregRows df (some Y) none none ≠ [] := by
      intro h0
      exact hne (by unfold to_hijri; rw [summarize_fst, h0])
    obtain ⟨hfirst, hspan⟩ :=
      summarize_of_range (gregRows df (some Y) none none) s hs' hne'
    refine ⟨⟨s, ?_, ?_⟩, ?_⟩
    · unfold to_hijri; exact hfirst
    · unfold to_hijri; rw [summarize_fst]; exact hs'
    · unfold to_hijri; rw [summarize_fst]; exact hspan

theorem c7_range_contiguous_witness :
    (∃ f : Nat, (to_hijri sampleData (some 2024) (some 1) none).2.1 = some f ∧
      (to_hijri sampleData (some 2024) (some 1) none).1.map Prod.fst
        = List.range' f (to_hijri sampleData (some 2024) (some 1) none).1.length) ∧
    (to_hijri sampleData (some 2024) (some 1) none).2.2
      = ((to_hijri sampleData (some 2024) (some 1) none).1.length : Int) - 1 ∧
    ((to_hijri sampleData (some 2024) (some 1) none).1.length = 3 →
      (to_hijri sampleData (some 2024) (some 1) none).2.2 = 2) :=
  (c7_range_contiguous sampleData (by decide) 2024 1).1 (by decide)

end HijriSpec
